import Mathlib

set_option maxHeartbeats 1000000

namespace LyfegenChat

/-! ## JSON values and the JSON.parse model

Chat.jsx decodes each stream frame payload with the platform JSON.parse and
reads the fields type / content / sources of the result.  We model JSON
values and a whole-string recursive-descent parser. -/

/-- JSON values as produced by the platform JSON.parse, modelling the payloads
carried by the stream protocol frames. Numbers are modelled as integers (the
protocol payloads of this application carry no fractional numbers). -/
inductive Json where
  | null : Json
  | bool : Bool → Json
  | num : Int → Json
  | str : List Char → Json
  | arr : List Json → Json
  | obj : List (List Char × Json) → Json

/-- Does the pattern (first argument) occur at the head of the second list? -/
def listStartsWith : List Char → List Char → Bool
  | [], _ => true
  | _ :: _, [] => false
  | p :: ps, c :: cs => p == c && listStartsWith ps cs

/-- Does the second list occur contiguously anywhere inside the first? -/
def hasSubstring : List Char → List Char → Bool
  | hay, needle =>
    listStartsWith needle hay ||
      match hay with
      | [] => false
      | _ :: t => hasSubstring t needle

/-- JSON whitespace characters. -/
def isJsonWs (c : Char) : Bool :=
  c == ' ' || c == '\t' || c == '\n' || c == '\r'

/-- Skip leading JSON whitespace. -/
def skipWs : List Char → List Char
  | [] => []
  | c :: cs => if isJsonWs c then skipWs cs else c :: cs

/-- Parse the remainder of a JSON string literal (the opening quote already
consumed): returns the decoded characters and the rest of the input. -/
def parseStringRest : List Char → Option (List Char × List Char)
  | [] => none
  | c :: cs =>
    if c == '"' then some ([], cs)
    else if c == '\\' then
      match cs with
      | [] => none
      | e :: cs2 =>
        let esc : Option Char :=
          if e == '"' then some '"'
          else if e == '\\' then some '\\'
          else if e == '/' then some '/'
          else if e == 'n' then some '\n'
          else if e == 't' then some '\t'
          else if e == 'r' then some '\r'
          else if e == 'b' then some (Char.ofNat 8)
          else if e == 'f' then some (Char.ofNat 12)
          else none
        match esc with
        | none => none
        | some d =>
          match parseStringRest cs2 with
          | none => none
          | some (s, r) => some (d :: s, r)
    else
      match parseStringRest cs with
      | none => none
      | some (s, r) => some (c :: s, r)

/-- Is the character a decimal digit? -/
def isDigitChar (c : Char) : Bool := '0' ≤ c && c ≤ '9'

/-- Parse a nonempty run of decimal digits into a natural number. -/
def parseDigits (acc : Nat) : List Char → Nat × List Char
  | [] => (acc, [])
  | c :: cs =>
    if isDigitChar c then parseDigits (acc * 10 + (c.toNat - '0'.toNat)) cs
    else (acc, c :: cs)

/-- Parse a JSON integer literal (optional minus sign, then digits). -/
def parseNumber : List Char → Option (Json × List Char)
  | [] => none
  | c :: cs =>
    if c == '-' then
      match cs with
      | [] => none
      | d :: _ =>
        if isDigitChar d then
          let p := parseDigits 0 cs
          some (Json.num (-(Int.ofNat p.1)), p.2)
        else none
    else if isDigitChar c then
      let p := parseDigits 0 (c :: cs)
      some (Json.num (Int.ofNat p.1), p.2)
    else none

mutual

/-- Fuel-indexed recursive-descent parser for one JSON value; returns the
value and the unconsumed input. -/
def parseValue : Nat → List Char → Option (Json × List Char)
  | 0, _ => none
  | fuel + 1, s =>
    match skipWs s with
    | [] => none
    | c :: cs =>
      if c == '"' then
        match parseStringRest cs with
        | none => none
        | some (t, r) => some (Json.str t, r)
      else if c == '{' then
        match skipWs cs with
        | '}' :: r => some (Json.obj [], r)
        | s2 => match parseMembers fuel s2 with
          | none => none
          | some (ms, r) => some (Json.obj ms, r)
      else if c == '[' then
        match skipWs cs with
        | ']' :: r => some (Json.arr [], r)
        | s2 => match parseItems fuel s2 with
          | none => none
          | some (vs, r) => some (Json.arr vs, r)
      else if listStartsWith ['t','r','u','e'] (c :: cs) then
        some (Json.bool true, (c :: cs).drop 4)
      else if listStartsWith ['f','a','l','s','e'] (c :: cs) then
        some (Json.bool false, (c :: cs).drop 5)
      else if listStartsWith ['n','u','l','l'] (c :: cs) then
        some (Json.null, (c :: cs).drop 4)
      else parseNumber (c :: cs)

/-- Parse one or more comma-separated array items, up to the closing bracket. -/
def parseItems : Nat → List Char → Option (List Json × List Char)
  | 0, _ => none
  | fuel + 1, s =>
    match parseValue fuel s with
    | none => none
    | some (v, r) =>
      match skipWs r with
      | ',' :: r2 =>
        match parseItems fuel r2 with
        | none => none
        | some (vs, r3) => some (v :: vs, r3)
      | ']' :: r2 => some ([v], r2)
      | _ => none

/-- Parse one or more comma-separated object members, up to the closing brace. -/
def parseMembers : Nat → List Char → Option (List (List Char × Json) × List Char)
  | 0, _ => none
  | fuel + 1, s =>
    match skipWs s with
    | '"' :: cs =>
      match parseStringRest cs with
      | none => none
      | some (k, r) =>
        match skipWs r with
        | ':' :: r2 =>
          match parseValue fuel r2 with
          | none => none
          | some (v, r3) =>
            match skipWs r3 with
            | ',' :: r4 =>
              match parseMembers fuel r4 with
              | none => none
              | some (ms, r5) => some ((k, v) :: ms, r5)
            | '}' :: r4 => some ([(k, v)], r4)
            | _ => none
        | _ => none
    | _ => none

end

/-- Model of JSON.parse: parse a whole string as a single JSON value,
rejecting the input if anything but whitespace remains. -/
def jsonParse (s : List Char) : Option Json :=
  match parseValue (s.length + 1) s with
  | none => none
  | some (v, r) => if skipWs r == [] then some v else none

/-- Property read `o.k` on a parsed JSON value: a field lookup on objects
(first match; the payloads carry no duplicate keys), undefined (none) on
everything else. -/
def lookupField : List (List Char × Json) → List Char → Option Json
  | [], _ => none
  | (k, v) :: ms, key => if k == key then some v else lookupField ms key

/-- JS property access data.key, undefined (none) when absent or when the
value is not an object. -/
def jsonGet (v : Json) (key : List Char) : Option Json :=
  match v with
  | Json.obj ms => lookupField ms key
  | _ => none

/-- JS truthiness of a JSON value ([] and {} are truthy). -/
def jsTruthy : Json → Bool
  | Json.null => false
  | Json.bool b => b
  | Json.num n => !(n == 0)
  | Json.str s => !(s == [])
  | Json.arr _ => true
  | Json.obj _ => true

mutual

/-- JS string coercion of a JSON value, as used by template literals. -/
def jsValToString : Json → List Char
  | Json.null => ['n','u','l','l']
  | Json.bool true => ['t','r','u','e']
  | Json.bool false => ['f','a','l','s','e']
  | Json.num n => (toString n).data
  | Json.str s => s
  | Json.arr l => jsArrToString l
  | Json.obj _ => ['[','o','b','j','e','c','t',' ','O','b','j','e','c','t',']']

/-- Array.prototype.toString: elements (null rendered empty) joined by commas. -/
def jsArrToString : List Json → List Char
  | [] => []
  | [Json.null] => []
  | [v] => jsValToString v
  | Json.null :: vs => ',' :: jsArrToString vs
  | v :: vs => jsValToString v ++ ',' :: jsArrToString vs

end

/-- JS string coercion of a possibly-undefined value, as interpolated by a
template literal. -/
def jsToString : Option Json → List Char
  | none => ['u','n','d','e','f','i','n','e','d']
  | some v => jsValToString v

/-! ## Data model (Chat.jsx state) -/

/-- Message sender tag: the code uses the strings 'user' and 'bot'. -/
inductive Sender where
  | user : Sender
  | bot : Sender
  deriving DecidableEq

/-- One transcript entry, after the JS object literals built in Chat.jsx.
Fields that a given object literal omits (sources/isFinal on the user
message, file on the bot messages) are none, matching the JS value
undefined.  text is Option Json because the final_response fold writes
data.content into it unchanged, which is undefined when the payload has no
content field. -/
structure DisplayMessage where
  sender : Sender
  text : Option Json
  sources : Option Json := none
  file : Option (List Char) := none
  isFinal : Option Bool := none

/-- The status React state: 'idle' or 'thinking'. -/
inductive UiStatus where
  | idle : UiStatus
  | thinking : UiStatus
  deriving DecidableEq

/-- The component state of Chat relevant to handleSendMessage: the messages
transcript, the input text, the staged file (modelled by its name; the
fileName state and the file input element mirror it) and the status flag. -/
structure ChatState where
  messages : List DisplayMessage
  input : List Char
  file : Option (List Char)
  fileName : List Char
  status : UiStatus

/-- The multipart form data sent to /v1/query-stream (session_id and api_key
are opaque correlation values, omitted here). -/
structure RequestData where
  query : List Char
  file : Option (List Char)

/-- The greeting message installed by the mount effect. -/
def greetingMessage : DisplayMessage :=
  { sender := Sender.bot
    text := some (Json.str ("Hello! I\x27m the Lyfegen Document Intelligence agent. You can ask me questions about the documents in my knowledge base, or upload a PDF to ask questions about a specific document.".data))
    sources := some (Json.arr [])
    isFinal := some true }

/-! ## Stream frame decoding

The read loop appends each decoded chunk to buffer, splits the buffer on
the blank-line delimiter with buffer.split('\n\n'), keeps the trailing
element as the new buffer and processes every complete frame. -/

/-- buffer.split('\n\n') followed by parts.pop(): returns the complete
frames (all parts but the last) and the retained trailing fragment (the
last part).  JS String.split scans left to right taking non-overlapping
occurrences of the delimiter. -/
def splitFrames : List Char → List (List Char) × List Char
  | [] => ([], [])
  | [c] => ([], [c])
  | c1 :: c2 :: rest =>
    if c1 = '\n' ∧ c2 = '\n' then
      ([] :: (splitFrames rest).1, (splitFrames rest).2)
    else
      match splitFrames (c2 :: rest) with
      | ([], b) => ([], c1 :: b)
      | (f :: fs, b) => ((c1 :: f) :: fs, b)

/-- One step of the read loop's buffering: append the chunk to the buffer,
split off the complete frames, retain the trailing fragment. -/
def feedChunk (acc : List (List Char) × List Char) (chunk : List Char) :
    List (List Char) × List Char :=
  ((acc.1 ++ (splitFrames (acc.2 ++ chunk)).1), (splitFrames (acc.2 ++ chunk)).2)

/-- Run the buffering loop over a whole sequence of chunks, starting from
the empty buffer: all complete frames found, in order, plus the final
retained fragment. -/
def feedChunks (chunks : List (List Char)) : List (List Char) × List Char :=
  chunks.foldl feedChunk ([], [])

/-- The fixed frame tag 'data: ' checked by part.startsWith('data: ');
part.substring(6) strips exactly these six characters. -/
def dataTag : List Char := ['d','a','t','a',':',' ']

/-- The key 'type'. -/
def keyType : List Char := ['t','y','p','e']

/-- The key 'content'. -/
def keyContent : List Char := ['c','o','n','t','e','n','t']

/-- The key 'sources'. -/
def keySources : List Char := ['s','o','u','r','c','e','s']

/-- The key 'detail'. -/
def keyDetail : List Char := ['d','e','t','a','i','l']

/-- The tag value 'status'. -/
def valStatus : List Char := ['s','t','a','t','u','s']

/-- The tag value 'final_response'. -/
def valFinalResponse : List Char := ['f','i','n','a','l','_','r','e','s','p','o','n','s','e']

/-- The tag value 'error'. -/
def valError : List Char := ['e','r','r','o','r']

/-- data.type === 'tag': true exactly when the value is the given string. -/
def typeIs (data : Json) (tag : List Char) : Bool :=
  match jsonGet data keyType with
  | some (Json.str t) => t == tag
  | _ => false

/-- A decoded stream event, the tagged union dispatched on data.type.
content and sources are the raw property reads (undefined when absent). -/
inductive StreamEvent where
  | status (content : Option Json) : StreamEvent
  | finalResponse (content : Option Json) (sources : Option Json) : StreamEvent
  | error (content : Option Json) : StreamEvent

/-- Decode one complete frame to an event: require the 'data: ' tag, strip
it, skip an empty payload, parse the payload as JSON (a parse failure is
caught and yields nothing) and classify on data.type; an unrecognized type
yields no event. -/
def decodeFrame (part : List Char) : Option StreamEvent :=
  if listStartsWith dataTag part then
    let jsonStr := part.drop 6
    if jsonStr = [] then none
    else
      match jsonParse jsonStr with
      | none => none
      | some data =>
        if typeIs data valStatus then some (StreamEvent.status (jsonGet data keyContent))
        else if typeIs data valFinalResponse then
          some (StreamEvent.finalResponse (jsonGet data keyContent) (jsonGet data keySources))
        else if typeIs data valError then some (StreamEvent.error (jsonGet data keyContent))
        else none
  else none

/-- The decoded event sequence of a chunked stream: feed every chunk through
the buffer, decode every complete frame. -/
def decodeStream (chunks : List (List Char)) : List StreamEvent :=
  (feedChunks chunks).1.filterMap decodeFrame

/-! ## Folding events into the transcript -/

/-- The setMessages callbacks copy the array and assign index
newMessages.length - 1.  On a nonempty list this replaces the last element
with a function of its old value; on the empty list the JS assignment to
index -1 leaves the array contents unchanged. -/
def setLast : List DisplayMessage → (DisplayMessage → DisplayMessage) → List DisplayMessage
  | [], _ => []
  | [m], f => [f m]
  | m :: ms, f => m :: setLast ms f

/-- The thinking-emoji progress marker of the status fold. -/
def statusTagText : List Char := ['🤔', ' ']

/-- The '❌ Error: ' marker of the error fold. -/
def errorTagText : List Char := ['❌', ' ', 'E', 'r', 'r', 'o', 'r', ':', ' ']

/-- data.sources || []: the sources value when present and truthy, the empty
array otherwise ([] itself is truthy, so an explicit empty list is kept). -/
def jsOrEmptyArr : Option Json → Json
  | none => Json.arr []
  | some v => if jsTruthy v then v else Json.arr []

/-- The setMessages fold of one parsed frame payload: dispatch on data.type.
status rewrites the last message's text to the progress-prefixed content and
isFinal to false; final_response writes content, sources (or []) and
isFinal true; error writes the error-prefixed content and isFinal true; any
other type leaves the transcript unchanged. -/
def foldEventData (prev : List DisplayMessage) (data : Json) : List DisplayMessage :=
  if typeIs data valStatus then
    setLast prev (fun m =>
      { m with text := some (Json.str (statusTagText ++ jsToString (jsonGet data keyContent)))
               isFinal := some false })
  else if typeIs data valFinalResponse then
    setLast prev (fun m =>
      { m with text := jsonGet data keyContent
               sources := some (jsOrEmptyArr (jsonGet data keySources))
               isFinal := some true })
  else if typeIs data valError then
    setLast prev (fun m =>
      { m with text := some (Json.str (errorTagText ++ jsToString (jsonGet data keyContent)))
               isFinal := some true })
  else prev

/-- The body of the for-loop over complete frames: skip a frame without the
'data: ' tag, skip an empty payload, skip a payload that fails JSON.parse
(the try/catch swallows the failure), otherwise fold the parsed payload. -/
def processFrame (msgs : List DisplayMessage) (part : List Char) : List DisplayMessage :=
  if listStartsWith dataTag part then
    let jsonStr := part.drop 6
    if jsonStr = [] then msgs
    else
      match jsonParse jsonStr with
      | none => msgs
      | some data => foldEventData msgs data
  else msgs

/-- Process a sequence of complete frames in order. -/
def processFrames (msgs : List DisplayMessage) (parts : List (List Char)) :
    List DisplayMessage :=
  parts.foldl processFrame msgs

/-! ## Transport failure handling -/

/-- The fixed text written by the catch handler before the error message. -/
def failTagText : List Char := "Failed to get response: ".data

/-- The fallback text used when the caught error carries an empty message. -/
def unknownErrorText : List Char := "An unknown error occurred.".data

/-- Finalize one message with the failure text, as the catch handler does. -/
def finalizeFailure (errMsg : List Char) (m : DisplayMessage) : DisplayMessage :=
  { m with text := some (Json.str (failTagText ++ errMsg)), isFinal := some true }

/-- prev.map((msg, index) => index !== prev.length - 1 ? msg : ...) with the
running index made explicit. -/
def failMapFrom (i : Nat) (lastIdx : Nat) (errMsg : List Char) :
    List DisplayMessage → List DisplayMessage
  | [] => []
  | m :: ms =>
    (if i ≠ lastIdx then m else finalizeFailure errMsg m) ::
      failMapFrom (i + 1) lastIdx errMsg ms

/-- The catch handler's transcript update: map over the messages, rewriting
only the entry at index length - 1 to the finalized failure message. -/
def failMessages (prev : List DisplayMessage) (errMsg : List Char) :
    List DisplayMessage :=
  failMapFrom 0 (prev.length - 1) errMsg prev

/-- The fallback text thrown for a non-success response whose error body has
no usable detail field. -/
def statusFallback (statusCode : Nat) : List Char :=
  "HTTP error! status: ".data ++ (toString statusCode).data

/-- The message of the Error thrown for a non-success initial response:
parse the body (falling back to {detail: 'Unknown server error'} when the
body is not JSON) and use errorData.detail when truthy, else the
HTTP-status fallback text. -/
def httpErrorMessage (statusCode : Nat) (body : List Char) : List Char :=
  let errorData : Json :=
    match jsonParse body with
    | some d => d
    | none => Json.obj [(keyDetail, Json.str ("Unknown server error".data))]
  match jsonGet errorData keyDetail with
  | some v => if jsTruthy v then jsValToString v else statusFallback statusCode
  | none => statusFallback statusCode

/-- error.response?.data?.detail || error.message || 'An unknown error
occurred.': a thrown Error has no response property, so this is the error's
message, or the fallback when that is empty. -/
def caughtErrorMessage (errMsg : List Char) : List Char :=
  if errMsg = [] then unknownErrorText else errMsg

/-- The whole catch handler: finalize the last message with the failure text
and reset the status flag. -/
def catchFailure (st : ChatState) (errMsg : List Char) : ChatState :=
  { st with messages := failMessages st.messages (caughtErrorMessage errMsg)
            status := UiStatus.idle }

/-! ## Submission -/

/-- The JS whitespace class stripped by String.prototype.trim (the ASCII
part; the inputs of interest contain no exotic unicode spaces). -/
def isJsWsChar (c : Char) : Bool :=
  c == ' ' || c == '\t' || c == '\n' || c == '\r' || c == '\x0b' || c == '\x0c'

/-- input.trim(): strip leading and trailing whitespace. -/
def jsTrim (s : List Char) : List Char :=
  ((s.dropWhile (fun c => isJsWsChar c)).reverse.dropWhile (fun c => isJsWsChar c)).reverse

/-- The placeholder text of the freshly appended agent message. -/
def thinkingText : List Char := "Thinking...".data

/-- The agent placeholder object literal appended on acceptance:
sender 'bot', text 'Thinking...', empty sources, isFinal false. -/
def botPlaceholder : DisplayMessage :=
  { sender := Sender.bot, text := some (Json.str thinkingText)
    sources := some (Json.arr []), isFinal := some false }

/-- handleSendMessage up to the network call: reject when the trimmed input
is empty and no file is staged; otherwise append the user message and the
non-final agent placeholder, flip status to thinking, clear the input and
the staged file, and emit the request payload (query = the untrimmed input,
file = the staged file). -/
def handleSendMessage (st : ChatState) : ChatState × Option RequestData :=
  if jsTrim st.input = [] ∧ st.file = none then (st, none)
  else
    let userMessage : DisplayMessage :=
      { sender := Sender.user, text := some (Json.str st.input), file := st.file }
    ({ st with
        messages := st.messages ++ [userMessage, botPlaceholder]
        status := UiStatus.thinking
        input := []
        file := none
        fileName := [] },
      some { query := st.input, file := st.file })

/-- The submit button's disabled attribute:
status === 'thinking' || (!input.trim() && !file). -/
def sendButtonDisabled (st : ChatState) : Bool :=
  st.status == UiStatus.thinking || (jsTrim st.input == [] && st.file == none)

/-- Submission through the form button: a disabled button does nothing,
otherwise handleSendMessage runs.  (The textarea's Enter key handler calls
handleSendMessage directly, without this guard.) -/
def buttonSendMessage (st : ChatState) : ChatState × Option RequestData :=
  if sendButtonDisabled st then (st, none) else handleSendMessage st

/-! ## Lemmas about the frame splitter -/

/-- A split that found no complete frame retains the whole input as the
trailing fragment. -/
theorem splitFrames_no_frame : ∀ s : List Char, (splitFrames s).1 = [] → (splitFrames s).2 = s := by
  intro s
  induction s using splitFrames.induct with
  | case1 => intro _; rfl
  | case2 c => intro _; rfl
  | case3 c1 c2 rest h ih =>
    intro hfs
    simp [splitFrames, h] at hfs
  | case4 c1 c2 rest h b hsp ih =>
    intro _
    have h1 : (splitFrames (c2 :: rest)).1 = [] := by rw [hsp]
    have h2 := ih h1
    rw [hsp] at h2
    simp only [splitFrames, h, if_neg, hsp]
    simpa using h2
  | case5 c1 c2 rest h f fs b hsp ih =>
    intro hfs
    simp [splitFrames, h, hsp] at hfs

/-- Splitting a concatenation splits the first part and then resumes the
left-to-right scan on its trailing fragment glued to the second part: the
incremental buffering of the read loop loses nothing at chunk boundaries. -/
theorem splitFrames_append (s t : List Char) :
    splitFrames (s ++ t) =
      ((splitFrames s).1 ++ (splitFrames ((splitFrames s).2 ++ t)).1,
        (splitFrames ((splitFrames s).2 ++ t)).2) := by
  induction s using splitFrames.induct with
  | case1 => simp [splitFrames]
  | case2 c => simp [splitFrames]
  | case3 c1 c2 rest h ih =>
    obtain ⟨h1, h2⟩ := h
    subst h1; subst h2
    simp only [List.cons_append, splitFrames, and_self, if_true, reduceIte]
    simp only [List.append_eq]
    rw [ih]
  | case4 c1 c2 rest h b hsp ih =>
    have h1 : (splitFrames (c2 :: rest)).1 = [] := by rw [hsp]
    have h2 := splitFrames_no_frame _ h1
    rw [hsp] at h2
    simp only at h2
    subst h2
    have hS : splitFrames (c1 :: c2 :: rest) = ([], c1 :: c2 :: rest) := by
      simp [splitFrames, h, hsp]
    rw [hS]
    simp
  | case5 c1 c2 rest h f fs b hsp ih =>
    have hS : splitFrames (c1 :: c2 :: rest) = ((c1 :: f) :: fs, b) := by
      simp [splitFrames, h, hsp]
    have hIH : splitFrames (c2 :: (rest ++ t)) =
        (f :: (fs ++ (splitFrames (b ++ t)).1), (splitFrames (b ++ t)).2) := by
      have h3 := ih
      rw [List.cons_append] at h3
      rw [h3, hsp]
      simp
    have hL : splitFrames (c1 :: c2 :: (rest ++ t)) =
        ((c1 :: f) :: (fs ++ (splitFrames (b ++ t)).1), (splitFrames (b ++ t)).2) := by
      simp [splitFrames, h, hIH]
    rw [List.cons_append, List.cons_append, hL, hS]
    simp

/-- The trailing fragment of a split holds no further delimiter: splitting
it again finds no frame. -/
theorem splitFrames_residual (s : List Char) :
    splitFrames (splitFrames s).2 = ([], (splitFrames s).2) := by
  induction s using splitFrames.induct with
  | case1 => rfl
  | case2 c => rfl
  | case3 c1 c2 rest h ih =>
    obtain ⟨h1, h2⟩ := h
    subst h1; subst h2
    simpa [splitFrames] using ih
  | case4 c1 c2 rest h b hsp ih =>
    have h1 : (splitFrames (c2 :: rest)).1 = [] := by rw [hsp]
    have h2 := splitFrames_no_frame _ h1
    rw [hsp] at h2
    simp only at h2
    subst h2
    have hS : splitFrames (c1 :: c2 :: rest) = ([], c1 :: c2 :: rest) := by
      simp [splitFrames, h, hsp]
    rw [hS]
    exact hS
  | case5 c1 c2 rest h f fs b hsp ih =>
    have hS : splitFrames (c1 :: c2 :: rest) = ((c1 :: f) :: fs, b) := by
      simp [splitFrames, h, hsp]
    rw [hS]
    rw [hsp] at ih
    simpa using ih

/-- Running the buffering loop from any frames-so-far and any
delimiter-free buffer yields exactly the frames of the concatenation. -/
theorem feedChunks_from (cs : List (List Char)) :
    ∀ (fs : List (List Char)) (buf : List Char),
      splitFrames buf = ([], buf) →
      cs.foldl feedChunk (fs, buf) =
        (fs ++ (splitFrames (buf ++ cs.flatten)).1, (splitFrames (buf ++ cs.flatten)).2) := by
  induction cs with
  | nil =>
    intro fs buf hbuf
    simp [hbuf]
  | cons c cs ih =>
    intro fs buf hbuf
    simp only [List.foldl_cons, List.flatten_cons, feedChunk]
    rw [ih _ _ (by simpa using splitFrames_residual (buf ++ c))]
    rw [← List.append_assoc buf c cs.flatten, splitFrames_append (buf ++ c) cs.flatten]
    simp

/-- The chunked buffering loop computes exactly the one-shot split of the
concatenated stream text. -/
theorem feedChunks_eq_flatten (cs : List (List Char)) :
    feedChunks cs = splitFrames cs.flatten := by
  have h := feedChunks_from cs [] [] rfl
  simpa [feedChunks] using h

/-! ## Lemmas about the transcript fold -/

/-- Rewriting the slot at index length - 1 rewrites exactly the last
element of a nonempty transcript. -/
theorem setLast_append (pre : List DisplayMessage) (m : DisplayMessage)
    (f : DisplayMessage → DisplayMessage) :
    setLast (pre ++ [m]) f = pre ++ [f m] := by
  induction pre with
  | nil => rfl
  | cons a pre ih =>
    cases pre with
    | nil => rfl
    | cons b pre2 =>
      simp only [List.cons_append, List.append_eq, setLast] at ih ⊢
      rw [ih]

/-- setLast never changes the transcript length. -/
theorem setLast_length (msgs : List DisplayMessage) (f : DisplayMessage → DisplayMessage) :
    (setLast msgs f).length = msgs.length := by
  rcases List.eq_nil_or_concat msgs with h | ⟨pre, m, h⟩
  · subst h; rfl
  · subst h
    rw [List.concat_eq_append, setLast_append]
    simp

/-- setLast never changes any message before the last. -/
theorem setLast_dropLast (msgs : List DisplayMessage) (f : DisplayMessage → DisplayMessage) :
    (setLast msgs f).dropLast = msgs.dropLast := by
  rcases List.eq_nil_or_concat msgs with h | ⟨pre, m, h⟩
  · subst h; rfl
  · subst h
    rw [List.concat_eq_append, setLast_append]
    simp

/-- The indexed map of the catch handler, started at any index i whose
target is i + pre.length, rewrites exactly the last element. -/
theorem failMapFrom_append : ∀ (pre : List DisplayMessage) (i : Nat) (m : DisplayMessage)
    (e : List Char),
    failMapFrom i (i + pre.length) e (pre ++ [m]) = pre ++ [finalizeFailure e m] := by
  intro pre
  induction pre with
  | nil =>
    intro i m e
    simp [failMapFrom]
  | cons a pre ih =>
    intro i m e
    simp only [List.cons_append, failMapFrom, List.length_cons, List.append_eq]
    have h1 : i ≠ i + (pre.length + 1) := by omega
    rw [if_pos h1]
    have h2 : i + (pre.length + 1) = (i + 1) + pre.length := by omega
    rw [h2, ih]

/-- The catch handler rewrites exactly the last message of a nonempty
transcript to the finalized failure message. -/
theorem failMessages_append (pre : List DisplayMessage) (m : DisplayMessage) (e : List Char) :
    failMessages (pre ++ [m]) e = pre ++ [finalizeFailure e m] := by
  unfold failMessages
  have h : (pre ++ [m]).length - 1 = 0 + pre.length := by simp
  rw [h, failMapFrom_append]

/-- The catch handler preserves the transcript length. -/
theorem failMessages_length (msgs : List DisplayMessage) (e : List Char) :
    (failMessages msgs e).length = msgs.length := by
  rcases List.eq_nil_or_concat msgs with h | ⟨pre, m, h⟩
  · subst h; rfl
  · subst h
    rw [List.concat_eq_append, failMessages_append]
    simp

/-- The catch handler changes no message before the last. -/
theorem failMessages_dropLast (msgs : List DisplayMessage) (e : List Char) :
    (failMessages msgs e).dropLast = msgs.dropLast := by
  rcases List.eq_nil_or_concat msgs with h | ⟨pre, m, h⟩
  · subst h; rfl
  · subst h
    rw [List.concat_eq_append, failMessages_append]
    simp

/-- A payload whose type is none of status, final_response and error leaves
the transcript untouched. -/
theorem foldEventData_unrecognized (msgs : List DisplayMessage) (data : Json)
    (h1 : typeIs data valStatus = false) (h2 : typeIs data valFinalResponse = false)
    (h3 : typeIs data valError = false) :
    foldEventData msgs data = msgs := by
  simp [foldEventData, h1, h2, h3]

/-- Every fold preserves the transcript length. -/
theorem foldEventData_length (msgs : List DisplayMessage) (data : Json) :
    (foldEventData msgs data).length = msgs.length := by
  unfold foldEventData
  split_ifs <;> simp [setLast_length]

/-- Every fold leaves all messages before the last unchanged. -/
theorem foldEventData_dropLast (msgs : List DisplayMessage) (data : Json) :
    (foldEventData msgs data).dropLast = msgs.dropLast := by
  unfold foldEventData
  split_ifs <;> simp [setLast_dropLast]

/-! ## Concrete fixtures used by witnesses and counterexamples -/

/-- A state with a submission in flight: the greeting, a non-final agent
placeholder, text typed in the box, status thinking. -/
def stInFlight : ChatState :=
  { messages := [greetingMessage, botPlaceholder], input := "hi".data
    file := none, fileName := [], status := UiStatus.thinking }

/-- An idle state with a nonempty input and no staged file. -/
def stIdleReady : ChatState :=
  { messages := [greetingMessage], input := "hi".data
    file := none, fileName := [], status := UiStatus.idle }

/-- An idle state with whitespace-only input and no staged file. -/
def stWhitespaceNoFile : ChatState :=
  { messages := [greetingMessage], input := "   ".data
    file := none, fileName := [], status := UiStatus.idle }

/-- An idle state with a staged file and an empty input. -/
def stFileOnly : ChatState :=
  { messages := [greetingMessage], input := []
    file := some "report.pdf".data, fileName := "report.pdf".data
    status := UiStatus.idle }

/-- The final_response frame of the Hello scenario. -/
def frameFinalHello : List Char :=
  "data: \x7b\"type\":\"final_response\",\"content\":\"Hello\",\"sources\":[]\x7d".data

/-- A terminal final_response frame with content A. -/
def frameFinalA : List Char := "data: \x7b\"type\":\"final_response\",\"content\":\"A\"\x7d".data

/-- A status frame with content B. -/
def frameStatusB : List Char := "data: \x7b\"type\":\"status\",\"content\":\"B\"\x7d".data

/-- A status frame with content x. -/
def frameStatusX : List Char := "data: \x7b\"type\":\"status\",\"content\":\"x\"\x7d".data

/-- A data frame whose payload is not valid JSON. -/
def frameBad : List Char := "data: \x7bbad".data

/-- A data frame whose payload parses but carries an unrecognized type. -/
def frameOther : List Char := "data: \x7b\"type\":\"other\"\x7d".data

/-- The error body of the HTTP 500 scenario. -/
def body500 : List Char := "\x7b\"detail\":\"boom\"\x7d".data

/-! ## The claims -/

/-- C1: chunk-boundary invariance of the stream decoder — repeatedly
appending each chunk to the accumulation buffer, splitting on the blank
line, decoding each complete frame and retaining the trailing fragment
yields an event sequence (and a final fragment) that depends only on the
concatenation of the chunks: chunk sequences with equal concatenation
decode identically. -/
theorem C1_chunk_boundary_invariance (cs1 cs2 : List (List Char))
    (h : cs1.flatten = cs2.flatten) :
    decodeStream cs1 = decodeStream cs2 ∧ feedChunks cs1 = feedChunks cs2 := by
  constructor
  · simp [decodeStream, feedChunks_eq_flatten, h]
  · simp [feedChunks_eq_flatten, h]

/-- C1 witness: the split frame scenario — "data: ..." cut in the middle of
the word status — decodes identically to the unsplit stream, namely to
exactly one Status event with content x. -/
theorem C1_chunk_boundary_invariance_witness :
    decodeStream ["data: \x7b\"type\":\"sta".data, "tus\",\"content\":\"x\"\x7d\n\n".data] =
      decodeStream ["data: \x7b\"type\":\"status\",\"content\":\"x\"\x7d\n\n".data] ∧
    decodeStream ["data: \x7b\"type\":\"sta".data, "tus\",\"content\":\"x\"\x7d\n\n".data] =
      [StreamEvent.status (some (Json.str ['x']))] :=
  ⟨(C1_chunk_boundary_invariance _ _ (by decide)).1, by rfl⟩

/-- C2: a frame whose payload after the data tag is not valid JSON decodes
to no event, and the transcript obtained by folding a frame sequence
containing it anywhere equals the transcript obtained with it absent — the
malformed frame never terminates decoding of later frames. -/
theorem C2_malformed_frame_skipped (msgs : List DisplayMessage)
    (fs1 fs2 : List (List Char)) (bad : List Char)
    (h : jsonParse (bad.drop 6) = none) :
    decodeFrame bad = none ∧
    processFrames msgs (fs1 ++ bad :: fs2) = processFrames msgs (fs1 ++ fs2) := by
  have hskip : ∀ ms : List DisplayMessage, processFrame ms bad = ms := by
    intro ms
    cases hp : listStartsWith dataTag bad with
    | false => simp [processFrame, hp]
    | true =>
      by_cases he : bad.drop 6 = []
      · simp [processFrame, hp, he]
      · simp [processFrame, hp, he, h]
  constructor
  · cases hp : listStartsWith dataTag bad with
    | false => simp [decodeFrame, hp]
    | true =>
      by_cases he : bad.drop 6 = []
      · simp [decodeFrame, hp, he]
      · simp [decodeFrame, hp, he, h]
  · simp [processFrames, List.foldl_append, hskip]

/-- C2 witness: the frame with payload lbrace-bad is skipped between a
status frame and a final frame without disturbing either. -/
theorem C2_malformed_frame_skipped_witness :
    jsonParse (frameBad.drop 6) = none ∧
    decodeFrame frameBad = none ∧
    processFrames [greetingMessage, botPlaceholder] [frameStatusX, frameBad, frameFinalHello] =
      processFrames [greetingMessage, botPlaceholder] [frameStatusX, frameFinalHello] :=
  ⟨rfl,
   (C2_malformed_frame_skipped [greetingMessage, botPlaceholder]
      [frameStatusX] [frameFinalHello] frameBad rfl).1,
   (C2_malformed_frame_skipped [greetingMessage, botPlaceholder]
      [frameStatusX] [frameFinalHello] frameBad rfl).2⟩

/-- C3 counterexample: with the transcript's last agent message still
non-final (and status thinking), handleSendMessage — reachable through the
textarea's Enter key — still appends two messages and emits a request, so
the claimed universal rejection fails. -/
theorem C3_inflight_not_rejected_counterexample :
    stInFlight.messages.getLast?.map (fun m => m.isFinal) = some (some false) ∧
    stInFlight.messages.length = 2 ∧
    (handleSendMessage stInFlight).1.messages.length = 4 ∧
    (handleSendMessage stInFlight).2.isSome = true :=
  ⟨rfl, rfl, rfl, rfl⟩

/-- C3 amended: the at-most-one-in-flight policy is enforced only on the
submit button path — while status is thinking the button is disabled and a
button submission is a no-op that sends nothing; handleSendMessage itself
checks only the empty-input-and-no-file guard, so the Enter key path
bypasses the in-flight policy. -/
theorem C3_button_inflight_guard (st : ChatState) :
    buttonSendMessage { st with status := UiStatus.thinking } =
      ({ st with status := UiStatus.thinking }, none) := by
  simp [buttonSendMessage, sendButtonDisabled]

/-- C4 counterexample: the agent placeholder appended by an accepted
submission has the nonempty text Thinking..., not the empty text the claim
states. -/
theorem C4_placeholder_text_counterexample :
    (handleSendMessage stIdleReady).1.messages.getLast?.map (fun m => m.text) =
      some (some (Json.str thinkingText)) ∧
    thinkingText ≠ [] :=
  ⟨rfl, by decide⟩

/-- C4 amended: an accepted submission appends exactly two messages — the
immutable user message carrying the query text and the staged filename, and
the agent placeholder with text Thinking... (not empty text), empty sources
and isFinal false — clears the input and file staging state, and emits the
request. -/
theorem C4_submit_appends_two (st : ChatState)
    (h : ¬(jsTrim st.input = [] ∧ st.file = none)) :
    (handleSendMessage st).1.messages =
      st.messages ++
        [{ sender := Sender.user, text := some (Json.str st.input), file := st.file },
         botPlaceholder] ∧
    (handleSendMessage st).1.input = [] ∧
    (handleSendMessage st).1.file = none ∧
    (handleSendMessage st).1.fileName = [] ∧
    (handleSendMessage st).2 = some { query := st.input, file := st.file } := by
  simp [handleSendMessage, h]

/-- C4 witness: the accepted submission from the idle fixture appends
exactly the user message and the placeholder. -/
theorem C4_submit_appends_two_witness :
    ¬(jsTrim stIdleReady.input = [] ∧ stIdleReady.file = none) ∧
    (handleSendMessage stIdleReady).1.messages =
      stIdleReady.messages ++
        [{ sender := Sender.user, text := some (Json.str stIdleReady.input), file := none },
         botPlaceholder] :=
  ⟨by decide, (C4_submit_appends_two stIdleReady (by decide)).1⟩

/-- C5: folding a final_response payload writes the event content into the
last message's text, the source list verbatim into sources (order
preserved, the empty list when the field is absent) and flips isFinal true;
the Hello scenario frame folds to text Hello, isFinal true, sources []. -/
theorem C5_final_response_fold :
    (∀ (pre : List DisplayMessage) (last : DisplayMessage) (c : Json) (l : List Json),
      foldEventData (pre ++ [last])
          (Json.obj [(keyType, Json.str valFinalResponse), (keyContent, c),
            (keySources, Json.arr l)]) =
        pre ++ [{ last with text := some c, sources := some (Json.arr l), isFinal := some true }]) ∧
    (∀ (pre : List DisplayMessage) (last : DisplayMessage) (c : Json),
      foldEventData (pre ++ [last])
          (Json.obj [(keyType, Json.str valFinalResponse), (keyContent, c)]) =
        pre ++ [{ last with text := some c, sources := some (Json.arr []), isFinal := some true }]) ∧
    processFrame [greetingMessage, botPlaceholder] frameFinalHello =
      [greetingMessage,
       { botPlaceholder with text := some (Json.str "Hello".data), sources := some (Json.arr []), isFinal := some true }] := by
  refine ⟨?_, ?_, by rfl⟩
  · intro pre last c l
    simp [foldEventData, typeIs, jsonGet, lookupField, jsOrEmptyArr, jsTruthy, setLast_append,
      (by decide : (valFinalResponse == valStatus) = false),
      (by decide : (keyType == keyContent) = false),
      (by decide : (keyType == keySources) = false),
      (by decide : (keyContent == keySources) = false)]
  · intro pre last c
    simp [foldEventData, typeIs, jsonGet, lookupField, jsOrEmptyArr, jsTruthy, setLast_append,
      (by decide : (valFinalResponse == valStatus) = false),
      (by decide : (keyType == keyContent) = false),
      (by decide : (keyType == keySources) = false),
      (by decide : (keyContent == keySources) = false)]

/-- C6: the catch handler always finalizes the last transcript message with
the failure-prefixed error text (and resets status to idle), for the
non-success initial response and the mid-stream abort alike; the HTTP 500
scenario with body detail boom yields the message of the thrown error boom
and a finalized agent message whose text contains boom. -/
theorem C6_transport_failure_finalizes :
    (∀ (st : ChatState) (pre : List DisplayMessage) (last : DisplayMessage) (err : List Char),
      (catchFailure { st with messages := pre ++ [last] } err).messages =
        pre ++ [{ last with text := some (Json.str (failTagText ++ caughtErrorMessage err)), isFinal := some true }] ∧
      (catchFailure { st with messages := pre ++ [last] } err).status = UiStatus.idle) ∧
    httpErrorMessage 500 body500 = "boom".data ∧
    (catchFailure stInFlight (httpErrorMessage 500 body500)).messages.getLast?.map
        (fun m => m.isFinal) = some (some true) ∧
    (catchFailure stInFlight (httpErrorMessage 500 body500)).messages.getLast?.map
        (fun m => jsToString m.text) = some (failTagText ++ "boom".data) ∧
    hasSubstring (failTagText ++ "boom".data) "boom".data = true := by
  refine ⟨?_, by rfl, by rfl, by rfl, by rfl⟩
  intro st pre last err
  constructor
  · simp [catchFailure, failMessages_append, finalizeFailure]
  · rfl

/-- C7: an empty or whitespace-only query with no staged file is silently
rejected — state unchanged, no request; a staged file with trimmed-empty
query is accepted: the request is still sent carrying the file, and the
user message records the filename alongside the (empty) query text. -/
theorem C7_submission_validation (st : ChatState) :
    (jsTrim st.input = [] → st.file = none → handleSendMessage st = (st, none)) ∧
    (∀ fname, st.file = some fname → jsTrim st.input = [] →
      (handleSendMessage st).2 = some { query := st.input, file := some fname } ∧
      (handleSendMessage st).1.messages =
        st.messages ++
          [{ sender := Sender.user, text := some (Json.str st.input), file := some fname },
           botPlaceholder]) := by
  constructor
  · intro h1 h2
    simp [handleSendMessage, h1, h2]
  · intro fname hf h1
    have hacc : ¬(jsTrim st.input = [] ∧ st.file = none) := by simp [hf]
    simp [handleSendMessage, hacc, hf]

/-- C7 witness: whitespace-only input and no file is a strict no-op, while
a staged file with empty input sends the request and records the filename
on the user message. -/
theorem C7_submission_validation_witness :
    handleSendMessage stWhitespaceNoFile = (stWhitespaceNoFile, none) ∧
    (handleSendMessage stFileOnly).2 =
      some { query := [], file := some "report.pdf".data } ∧
    (handleSendMessage stFileOnly).1.messages =
      stFileOnly.messages ++
        [{ sender := Sender.user, text := some (Json.str []), file := some "report.pdf".data },
         botPlaceholder] :=
  ⟨(C7_submission_validation stWhitespaceNoFile).1 (by decide) rfl,
   ((C7_submission_validation stFileOnly).2 "report.pdf".data rfl (by decide)).1,
   ((C7_submission_validation stFileOnly).2 "report.pdf".data rfl (by decide)).2⟩

/-- C8: folding dispatches on the payload type — a status payload rewrites
the last message's text to the thinking-emoji-prefixed content and keeps
isFinal false, while an error payload rewrites it to the error-prefixed
content and sets isFinal true. -/
theorem C8_status_error_folds :
    (∀ (pre : List DisplayMessage) (last : DisplayMessage) (c : List Char),
      foldEventData (pre ++ [last])
          (Json.obj [(keyType, Json.str valStatus), (keyContent, Json.str c)]) =
        pre ++ [{ last with text := some (Json.str (statusTagText ++ c)), isFinal := some false }]) ∧
    (∀ (pre : List DisplayMessage) (last : DisplayMessage) (c : List Char),
      foldEventData (pre ++ [last])
          (Json.obj [(keyType, Json.str valError), (keyContent, Json.str c)]) =
        pre ++ [{ last with text := some (Json.str (errorTagText ++ c)), isFinal := some true }]) := by
  constructor
  · intro pre last c
    simp [foldEventData, typeIs, jsonGet, lookupField, jsToString, jsValToString, setLast_append,
      (by decide : (keyType == keyContent) = false)]
  · intro pre last c
    simp [foldEventData, typeIs, jsonGet, lookupField, jsToString, jsValToString, setLast_append,
      (by decide : (valError == valStatus) = false),
      (by decide : (valError == valFinalResponse) = false),
      (by decide : (keyType == keyContent) = false)]

/-- C9 counterexample: after the final_response frame finalizes the agent
message (isFinal true, text A), folding one more recognized event — a
status frame — rewrites the supposedly immutable text and flips isFinal
back to false: the fold has no guard on finalized messages. -/
theorem C9_finalized_then_mutated_counterexample :
    (processFrames [botPlaceholder] [frameFinalA]).getLast?.map (fun m => m.isFinal) =
      some (some true) ∧
    (processFrames [botPlaceholder] [frameFinalA]).getLast?.map (fun m => m.text) =
      some (some (Json.str ['A'])) ∧
    (processFrames [botPlaceholder] [frameFinalA, frameStatusB]).getLast?.map
      (fun m => m.isFinal) = some (some false) ∧
    (processFrames [botPlaceholder] [frameFinalA, frameStatusB]).getLast?.map
      (fun m => m.text) = some (some (Json.str (statusTagText ++ ['B']))) ∧
    (some (some true) : Option (Option Bool)) ≠ some (some false) :=
  ⟨rfl, rfl, rfl, rfl, by decide⟩

/-- C9 amended: exactly-one-terminal-event is a protocol precondition the
client does not enforce — a recognized event folded after a terminal one
does mutate the finalized message; what holds is that a frame decoding to
no event (non-data, empty payload, malformed JSON, or unrecognized type)
leaves the transcript — in particular a finalized message — unchanged. -/
theorem C9_no_event_no_change (msgs : List DisplayMessage) (part : List Char)
    (h : decodeFrame part = none) :
    processFrame msgs part = msgs := by
  unfold processFrame
  unfold decodeFrame at h
  cases hp : listStartsWith dataTag part with
  | false => simp [hp]
  | true =>
    simp only [hp, if_true] at h ⊢
    by_cases he : part.drop 6 = []
    · simp [he]
    · simp only [he, if_false, reduceIte] at h ⊢
      cases hj : jsonParse (part.drop 6) with
      | none => simp [hj]
      | some data =>
        rw [hj] at h
        by_cases h1 : typeIs data valStatus = true
        · simp [h1] at h
        · by_cases h2 : typeIs data valFinalResponse = true
          · simp [h1, h2] at h
          · by_cases h3 : typeIs data valError = true
            · simp [h1, h2, h3] at h
            · simp only [Bool.not_eq_true] at h1 h2 h3
              simp [foldEventData_unrecognized _ _ h1 h2 h3]

/-- C9 witness: the unrecognized-type frame folds as a no-op on a transcript
whose last message is finalized. -/
theorem C9_no_event_no_change_witness :
    decodeFrame frameOther = none ∧
    processFrame [greetingMessage] frameOther = [greetingMessage] :=
  ⟨rfl, C9_no_event_no_change [greetingMessage] frameOther rfl⟩

/-- C10: every fold of a decoded event and the transport-failure handler
preserve the transcript length and leave every message but the last exactly
unchanged, and a payload with an unrecognized type changes nothing at
all. -/
theorem C10_frame_property (msgs : List DisplayMessage) (data : Json) (err : List Char) :
    (foldEventData msgs data).length = msgs.length ∧
    (foldEventData msgs data).dropLast = msgs.dropLast ∧
    (failMessages msgs err).length = msgs.length ∧
    (failMessages msgs err).dropLast = msgs.dropLast ∧
    (typeIs data valStatus = false → typeIs data valFinalResponse = false →
      typeIs data valError = false → foldEventData msgs data = msgs) :=
  ⟨foldEventData_length msgs data, foldEventData_dropLast msgs data,
   failMessages_length msgs err, failMessages_dropLast msgs err,
   fun h1 h2 h3 => foldEventData_unrecognized msgs data h1 h2 h3⟩

/-- C10 witness: an unrecognized payload folds as the identity, and the
failure handler keeps every message before the last (here the greeting)
unchanged. -/
theorem C10_frame_property_witness :
    foldEventData [greetingMessage, botPlaceholder]
      (Json.obj [(keyType, Json.str "other".data)]) = [greetingMessage, botPlaceholder] ∧
    (failMessages [greetingMessage, botPlaceholder] "x".data).dropLast = [greetingMessage] :=
  ⟨(C10_frame_property [greetingMessage, botPlaceholder]
      (Json.obj [(keyType, Json.str "other".data)]) "x".data).2.2.2.2 rfl rfl rfl,
   (C10_frame_property [greetingMessage, botPlaceholder]
      (Json.obj [(keyType, Json.str "other".data)]) "x".data).2.2.2.1⟩

end LyfegenChat
